import Mathlib

/-
  Shallow embedding of libngf-qt: the NGF (non-graphic feedback) daemon
  client library.  The embedding covers

  * the `Ngf::ClientPrivate` event registry and connection manager declared
    in src/dbus/clientprivate.h — its method bodies are not part of the
    sources here, so they are modelled from the specification (each such
    definition's doc comment starts with "Modelled from the spec:");
  * the declarative wrapper `DeclarativeNgfEvent` from
    declarative/src/declarativengfevent.cpp, translated from the source;
  * the shared-client acquisition helper `clientInstance` from the same
    file, with the reference-counting semantics of QSharedPointer /
    QWeakPointer made explicit.
-/

namespace Ngf

/-- Model of the `QVariant` values stored in NGF property maps: boolean,
integer and string values, plus `qother` standing for a value of any other
runtime type (identified by its type name). -/
inductive QVariant
  | qbool (b : Bool)
  | qint (i : Int)
  | qstring (s : String)
  | qother (typeName : String)
  deriving DecidableEq, Repr

/-- `typedef QMap<QString, QVariant> Proplist` (clientprivate.h line 36),
modelled as an association list with at most one binding per key. -/
abbrev Proplist := List (String × QVariant)

/-- `QMap::insert` semantics: replace the binding of an existing key,
otherwise add a new binding. -/
def mapInsert : Proplist → String → QVariant → Proplist
  | [], k, v => [(k, v)]
  | (k0, v0) :: rest, k, v =>
      if k0 = k then (k, v) :: rest else (k0, v0) :: mapInsert rest k v

/-- `QMap::value` / lookup semantics. -/
def mapLookup : Proplist → String → Option QVariant
  | [], _ => none
  | (k0, v0) :: rest, k => if k0 = k then some v0 else mapLookup rest k

/-- The type test of declarativengfevent.cpp lines 141–143: NGF only allows
boolean, integer, or string types for property values. -/
def QVariant.isSupported : QVariant → Bool
  | .qbool _ => true
  | .qint _ => true
  | .qstring _ => true
  | .qother _ => false

/-- Event states, from the `EventState` enum of clientprivate.h lines 58–63. -/
inductive EventState
  | StateNew
  | StatePlaying
  | StatePaused
  | StateStopped
  deriving DecidableEq, Repr

/-- Modelled from the spec: the `Ngf::Event` record tracked by the registry
(its class definition is not among the sources; clientprivate.h only forward
declares `class Event`).  Fields follow spec §3: client id assigned at
creation, server id 0 until the Play reply binds it, immutable name, the
filtered property map, and the lifecycle state. -/
structure Event where
  clientEventId : Nat
  serverEventId : Nat
  name : String
  properties : Proplist
  state : EventState
  deriving DecidableEq, Repr

/-- The signals the client emits to observers (ngfclient.h surface as listed
in spec §6): connection status changes and per-event notifications keyed by
the client event id. -/
inductive Signal
  | connectionStatus (connected : Bool)
  | eventFailed (clientEventId : Nat)
  | eventCompleted (clientEventId : Nat)
  | eventPlaying (clientEventId : Nat)
  | eventPaused (clientEventId : Nat)
  deriving DecidableEq, Repr

/-- The remote D-Bus calls issued to the NGF daemon (spec §6): `Play(name,
propertyMap)`, `Pause(serverEventId)`, `Resume(serverEventId)`,
`Stop(serverEventId)`. -/
inductive RemoteCall
  | playCall (name : String) (properties : Proplist)
  | pauseCall (serverEventId : Nat)
  | resumeCall (serverEventId : Nat)
  | stopCall (serverEventId : Nat)
  deriving DecidableEq, Repr

/-- The asynchronous state notifications the daemon sends, keyed by server
event id (spec §4.2 / §6: EventPlaying, EventPaused, EventCompleted,
EventFailed). -/
inductive ServerEventStatus
  | failed
  | completed
  | playing
  | paused
  deriving DecidableEq, Repr

/-- The result of an asynchronous `Play` reply, delivered to
`playPendingReply`: either the server-assigned event id or a failure. -/
inductive PlayReply
  | success (serverEventId : Nat)
  | failure
  deriving DecidableEq, Repr

/-- The mutable state of `Ngf::ClientPrivate` (clientprivate.h lines 82–85):
the connected flag, the internal counter for client event ids (incremented
every time play is called), and the list of tracked events. -/
structure ClientPrivate where
  m_connected : Bool
  m_clientEventId : Nat
  m_events : List Event
  deriving DecidableEq, Repr

namespace ClientPrivate

/-- The state of a freshly constructed `ClientPrivate`: not connected, the
id counter at 0 so the first play call returns 1, and no tracked events. -/
def init : ClientPrivate := ⟨false, 0, []⟩

/-- Modelled from the spec: `ClientPrivate::isConnected` body is missing from
the sources; spec §4.1 — returns the current boolean state, no side effects. -/
def isConnected (st : ClientPrivate) : Bool :=
  st.m_connected

/-- Modelled from the spec: `ClientPrivate::changeConnected` body is missing
from the sources; spec §4.1 — emits the connection-state-changed signal
exactly once per actual transition, nothing on a redundant call. -/
def changeConnected (st : ClientPrivate) (connected : Bool) :
    ClientPrivate × List Signal :=
  if st.m_connected = connected then (st, [])
  else ({ st with m_connected := connected }, [Signal.connectionStatus connected])

/-- Modelled from the spec: `ClientPrivate::connect` body is missing from the
sources; spec §4.1 — idempotent no-op returning success while already
connected; otherwise establishes the bus connection (`busAvailable` models
whether the underlying bus is reachable) and reports the transition. -/
def connect (st : ClientPrivate) (busAvailable : Bool) :
    Bool × ClientPrivate × List Signal :=
  if st.m_connected then (true, st, [])
  else if busAvailable then
    let (st1, sigs) := changeConnected st true
    (true, st1, sigs)
  else (false, st, [])

/-- Modelled from the spec: `ClientPrivate::disconnect` body is missing from
the sources; spec §4.1 — tears down the watch and marks not-connected. -/
def disconnect (st : ClientPrivate) : ClientPrivate × List Signal :=
  changeConnected st false

/-- Modelled from the spec: `ClientPrivate::play` body is missing from the
sources; spec §4.2 — if not connected, return the sentinel 0 without
creating a record; otherwise allocate the next client id (monotonic counter),
create an Event in state New with server id 0, and issue the remote Play
request with the given name and properties. -/
def play (st : ClientPrivate) (event : String) (properties : Proplist) :
    Nat × ClientPrivate × List RemoteCall :=
  if st.m_connected then
    let id := st.m_clientEventId + 1
    (id,
     { st with
        m_clientEventId := id,
        m_events := st.m_events ++ [⟨id, 0, event, properties, EventState.StateNew⟩] },
     [RemoteCall.playCall event properties])
  else (0, st, [])

/-- Modelled from the spec: the one-argument `ClientPrivate::play(event)`
overload (clientprivate.h line 49) plays the event with no properties. -/
def playNoProps (st : ClientPrivate) (event : String) :
    Nat × ClientPrivate × List RemoteCall :=
  play st event []

/-- Lookup of a tracked event by its client event id. -/
def findByClientId (st : ClientPrivate) (clientEventId : Nat) : Option Event :=
  st.m_events.find? (fun e => decide (e.clientEventId = clientEventId))

/-- Lookup of a tracked event by name; with repeated names this resolves to
the most recently created matching record (spec §3 invariants). -/
def findByName (st : ClientPrivate) (event : String) : Option Event :=
  st.m_events.reverse.find? (fun e => decide (e.name = event))

/-- Modelled from the spec: `ClientPrivate::removeEvent` body is missing from
the sources — removes the record with the given client id from the registry. -/
def removeEvent (st : ClientPrivate) (clientEventId : Nat) : ClientPrivate :=
  { st with m_events := st.m_events.filter (fun e => decide (e.clientEventId ≠ clientEventId)) }

/-- Modelled from the spec: `ClientPrivate::requestEventState` body is missing
from the sources; spec §4.2 — a control request for an event whose server id
is still 0 (state New, not yet acknowledged) fails with no side effects;
otherwise Pause/Resume issue the corresponding remote call (the local state
changes only on the daemon's later notification), and Stop issues the remote
call and removes the record immediately (fire-and-forget cleanup). -/
def requestEventState (st : ClientPrivate) (e : Event) (wantedState : EventState) :
    Bool × ClientPrivate × List RemoteCall :=
  if e.serverEventId = 0 then (false, st, [])
  else
    match wantedState with
    | EventState.StatePaused => (true, st, [RemoteCall.pauseCall e.serverEventId])
    | EventState.StatePlaying => (true, st, [RemoteCall.resumeCall e.serverEventId])
    | EventState.StateStopped =>
        (true, removeEvent st e.clientEventId, [RemoteCall.stopCall e.serverEventId])
    | EventState.StateNew => (false, st, [])

/-- Modelled from the spec: `ClientPrivate::changeState(quint32, EventState)`
body is missing from the sources — looks up the record by client id; if not
found, fails with no side effects, otherwise delegates to
`requestEventState`. -/
def changeState (st : ClientPrivate) (clientEventId : Nat) (wantedState : EventState) :
    Bool × ClientPrivate × List RemoteCall :=
  match findByClientId st clientEventId with
  | none => (false, st, [])
  | some e => requestEventState st e wantedState

/-- Modelled from the spec: `ClientPrivate::changeState(QString, EventState)`
body is missing from the sources — same as `changeState` but looking up the
record by event name. -/
def changeStateByName (st : ClientPrivate) (event : String) (wantedState : EventState) :
    Bool × ClientPrivate × List RemoteCall :=
  match findByName st event with
  | none => (false, st, [])
  | some e => requestEventState st e wantedState

/-- Modelled from the spec: `ClientPrivate::pause(quint32)` body is missing
from the sources — requests the Paused state for the event with this id. -/
def pause (st : ClientPrivate) (eventId : Nat) : Bool × ClientPrivate × List RemoteCall :=
  changeState st eventId EventState.StatePaused

/-- Modelled from the spec: `ClientPrivate::pause(QString)` body is missing
from the sources — requests the Paused state for the event with this name. -/
def pauseByName (st : ClientPrivate) (event : String) : Bool × ClientPrivate × List RemoteCall :=
  changeStateByName st event EventState.StatePaused

/-- Modelled from the spec: `ClientPrivate::resume(quint32)` body is missing
from the sources — requests the Playing state for the event with this id. -/
def resume (st : ClientPrivate) (eventId : Nat) : Bool × ClientPrivate × List RemoteCall :=
  changeState st eventId EventState.StatePlaying

/-- Modelled from the spec: `ClientPrivate::resume(QString)` body is missing
from the sources — requests the Playing state for the event with this name. -/
def resumeByName (st : ClientPrivate) (event : String) : Bool × ClientPrivate × List RemoteCall :=
  changeStateByName st event EventState.StatePlaying

/-- Modelled from the spec: `ClientPrivate::stop(quint32)` body is missing
from the sources — requests the Stopped state for the event with this id. -/
def stop (st : ClientPrivate) (eventId : Nat) : Bool × ClientPrivate × List RemoteCall :=
  changeState st eventId EventState.StateStopped

/-- Modelled from the spec: `ClientPrivate::stop(QString)` body is missing
from the sources — requests the Stopped state for the event with this name. -/
def stopByName (st : ClientPrivate) (event : String) : Bool × ClientPrivate × List RemoteCall :=
  changeStateByName st event EventState.StateStopped

/-- Modelled from the spec: `ClientPrivate::playPendingReply` body is missing
from the sources; spec §4.2 — the reply is correlated via the pending-call
context, modelled here by the client event id the play call allocated.  A
reply whose record is gone (removed by a connection-loss sweep) is dropped
silently.  Success binds the server id and leaves the state unchanged (still
New); failure removes the record and emits event-failed with the client id. -/
def playPendingReply (st : ClientPrivate) (clientEventId : Nat) (reply : PlayReply) :
    ClientPrivate × List Signal :=
  match findByClientId st clientEventId with
  | none => (st, [])
  | some e =>
      match reply with
      | PlayReply.success sid =>
          ({ st with
              m_events := st.m_events.map (fun ev =>
                if ev.clientEventId = clientEventId then { ev with serverEventId := sid } else ev) },
           [])
      | PlayReply.failure =>
          (removeEvent st clientEventId, [Signal.eventFailed e.clientEventId])

/-- Lookup of a tracked event by its (non-zero) server event id. -/
def findByServerId (st : ClientPrivate) (serverEventId : Nat) : Option Event :=
  st.m_events.find? (fun e => decide (e.serverEventId = serverEventId))

/-- Sets the state field of the record with the given client id. -/
def setState (st : ClientPrivate) (clientEventId : Nat) (s : EventState) : ClientPrivate :=
  { st with
      m_events := st.m_events.map (fun ev =>
        if ev.clientEventId = clientEventId then { ev with state := s } else ev) }

/-- Modelled from the spec: `ClientPrivate::setEventState` body is missing
from the sources; spec §4.2 — an incoming daemon notification keyed by server
event id.  No matching record: silent no-op.  playing/paused: set the state
and emit the corresponding signal with the client id.  completed/failed:
remove the record and emit the corresponding signal. -/
def setEventState (st : ClientPrivate) (serverEventId : Nat) (status : ServerEventStatus) :
    ClientPrivate × List Signal :=
  match findByServerId st serverEventId with
  | none => (st, [])
  | some e =>
      match status with
      | ServerEventStatus.playing =>
          (setState st e.clientEventId EventState.StatePlaying,
           [Signal.eventPlaying e.clientEventId])
      | ServerEventStatus.paused =>
          (setState st e.clientEventId EventState.StatePaused,
           [Signal.eventPaused e.clientEventId])
      | ServerEventStatus.completed =>
          (removeEvent st e.clientEventId, [Signal.eventCompleted e.clientEventId])
      | ServerEventStatus.failed =>
          (removeEvent st e.clientEventId, [Signal.eventFailed e.clientEventId])

/-- Modelled from the spec: `ClientPrivate::removeAllEvents` body is missing
from the sources; spec §4.2 / §7 — for every tracked record synthesize a
terminal failed outcome (all tracked events are force-terminated, never left
dangling) and clear the registry; used only in response to connection loss. -/
def removeAllEvents (st : ClientPrivate) : ClientPrivate × List Signal :=
  ({ st with m_events := [] },
   st.m_events.map (fun e => Signal.eventFailed e.clientEventId))

/-- Modelled from the spec: `ClientPrivate::serviceUnregistered` body is
missing from the sources; spec §4.1 — on detecting the service's
disappearance, remove all events from the registry first and only then
propagate the not-connected notification. -/
def serviceUnregistered (st : ClientPrivate) : ClientPrivate × List Signal :=
  let (st1, sigs1) := removeAllEvents st
  let (st2, sigs2) := changeConnected st1 false
  (st2, sigs1 ++ sigs2)

/-- Runs a sequence of play calls, collecting the returned client ids. -/
def playMany : ClientPrivate → List (String × Proplist) → List Nat × ClientPrivate
  | st, [] => ([], st)
  | st, (event, properties) :: rest =>
      let (id, st1, _) := play st event properties
      let (ids, st2) := playMany st1 rest
      (id :: ids, st2)

end ClientPrivate

end Ngf

/-- Playback status of the declarative element
(`DeclarativeNgfEvent::EventStatus`). -/
inductive EventStatus
  | Stopped
  | Playing
  | Paused
  | Failed
  deriving DecidableEq, Repr

/-- The QML-visible signals of `DeclarativeNgfEvent`. -/
inductive DeclSignal
  | eventChanged
  | statusChanged
  | connectedChanged
  deriving DecidableEq, Repr

/-- The member state of `DeclarativeNgfEvent`: the event name, playback
status, current client event id (0 when none), the autostart flag, and the
property list (each `DeclarativeNgfEventProperty` contributing a name and a
QVariant value). -/
structure DeclarativeNgfEvent where
  m_event : String
  m_status : EventStatus
  m_eventId : Nat
  m_autostart : Bool
  m_properties : List (String × Ngf.QVariant)
  deriving DecidableEq, Repr

namespace DeclarativeNgfEvent

open Ngf

/-- The property-filtering loop of `DeclarativeNgfEvent::play`
(declarativengfevent.cpp lines 138–145): insert into the map exactly the
properties whose value is of boolean, integer or string type. -/
def buildProp : List (String × QVariant) → Proplist → Proplist
  | [], prop => prop
  | (name, value) :: rest, prop =>
      buildProp rest (if value.isSupported then mapInsert prop name value else prop)

/-- `DeclarativeNgfEvent::stop` (declarativengfevent.cpp lines 184–195):
clear the autostart flag; if no event id is held, return; otherwise issue
`client->stop(m_eventId)`, clear the id, set status Stopped and emit
statusChanged.  Returns the new element state, the new shared client state,
the remote calls issued, and the declarative signals emitted. -/
def stop (d : DeclarativeNgfEvent) (c : ClientPrivate) :
    DeclarativeNgfEvent × ClientPrivate × List RemoteCall × List DeclSignal :=
  let d0 := { d with m_autostart := false }
  if d0.m_eventId = 0 then (d0, c, [], [])
  else
    let (_, c1, calls) := ClientPrivate.stop c d0.m_eventId
    ({ d0 with m_eventId := 0, m_status := EventStatus.Stopped },
     c1, calls, [DeclSignal.statusChanged])

/-- `DeclarativeNgfEvent::play` (declarativengfevent.cpp lines 124–151):
connect the shared client if needed, set autostart, stop any current event,
then — when the event name is non-empty and the client is connected — play
it, passing the filtered property map when the property list is non-empty.
Client signals emitted during `connect` are returned in the trace; slot
reactions to them are not folded in. -/
def play (d : DeclarativeNgfEvent) (c : ClientPrivate) (busAvailable : Bool) :
    DeclarativeNgfEvent × ClientPrivate × List RemoteCall × List Signal × List DeclSignal :=
  let (c1, connSigs) :=
    if ClientPrivate.isConnected c then (c, [])
    else
      let (_, c1, sigs) := ClientPrivate.connect c busAvailable
      (c1, sigs)
  let d1 := { d with m_autostart := true }
  let (d2, c2, calls2, declSigs2) :=
    if d1.m_eventId ≠ 0 then stop d1 c1 else (d1, c1, [], [])
  if !d2.m_event.isEmpty && ClientPrivate.isConnected c2 then
    if d2.m_properties.length > 0 then
      let (id, c3, calls3) := ClientPrivate.play c2 d2.m_event (buildProp d2.m_properties [])
      ({ d2 with m_eventId := id }, c3, calls2 ++ calls3, connSigs, declSigs2)
    else
      let (id, c3, calls3) := ClientPrivate.playNoProps c2 d2.m_event
      ({ d2 with m_eventId := id }, c3, calls2 ++ calls3, connSigs, declSigs2)
  else (d2, c2, calls2, connSigs, declSigs2)

/-- `DeclarativeNgfEvent::setEvent` (declarativengfevent.cpp lines 98–113):
if the new name equals the stored one, return immediately; otherwise stop any
current playback (restoring the autostart flag), store the name, emit
eventChanged, and restart playback if autostart is set. -/
def setEvent (d : DeclarativeNgfEvent) (c : ClientPrivate) (event : String)
    (busAvailable : Bool) :
    DeclarativeNgfEvent × ClientPrivate × List RemoteCall × List Signal × List DeclSignal :=
  if d.m_event = event then (d, c, [], [], [])
  else
    let (d1, c1, calls1, declSigs1) :=
      if d.m_eventId ≠ 0 then
        let (ds, cs, calls, sigs) := stop d c
        ({ ds with m_autostart := true }, cs, calls, sigs)
      else (d, c, [], [])
    let d2 := { d1 with m_event := event }
    let declSigs2 := declSigs1 ++ [DeclSignal.eventChanged]
    if d2.m_autostart then
      let (d3, c3, calls3, sigs3, declSigs3) := play d2 c1 busAvailable
      (d3, c3, calls1 ++ calls3, sigs3, declSigs2 ++ declSigs3)
    else (d2, c1, calls1, [], declSigs2)

/-- `DeclarativeNgfEvent::pause` (declarativengfevent.cpp lines 158–164):
if no event id is held, return without touching the client; otherwise issue
`client->pause(m_eventId)`. -/
def pause (d : DeclarativeNgfEvent) (c : ClientPrivate) :
    DeclarativeNgfEvent × ClientPrivate × List RemoteCall :=
  if d.m_eventId = 0 then (d, c, [])
  else
    let (_, c1, calls) := ClientPrivate.pause c d.m_eventId
    (d, c1, calls)

/-- `DeclarativeNgfEvent::resume` (declarativengfevent.cpp lines 171–177):
if no event id is held, return without touching the client; otherwise issue
`client->resume(m_eventId)`. -/
def resume (d : DeclarativeNgfEvent) (c : ClientPrivate) :
    DeclarativeNgfEvent × ClientPrivate × List RemoteCall :=
  if d.m_eventId = 0 then (d, c, [])
  else
    let (_, c1, calls) := ClientPrivate.resume c d.m_eventId
    (d, c1, calls)

end DeclarativeNgfEvent

/-- The state behind the file-static `clientInstance` helper
(declarativengfevent.cpp lines 65–76): `client` is the static
`QWeakPointer<Ngf::Client>` (holding the id of the instance it points to, or
none), `strongCount` the number of live `QSharedPointer` holders of that
instance (the weak pointer's `toStrongRef` yields null exactly when this is
0), and `nextId` identifies the next `Ngf::Client` a `new` would construct. -/
structure SharedClientState where
  nextId : Nat
  client : Option Nat
  strongCount : Nat
  deriving DecidableEq, Repr

/-- The initial shared-client state: no instance ever constructed. -/
def SharedClientState.initial : SharedClientState := ⟨0, none, 0⟩

/-- `clientInstance` (declarativengfevent.cpp lines 65–76): take a strong
reference from the static weak pointer; if it is null (never constructed, or
all previous holders released and the instance was destroyed), construct a
fresh `Ngf::Client` and point the weak pointer at it.  Returns the acquired
instance id and the new state. -/
def clientInstance (st : SharedClientState) : Nat × SharedClientState :=
  match st.client with
  | some i =>
      if 0 < st.strongCount then (i, { st with strongCount := st.strongCount + 1 })
      else (st.nextId, ⟨st.nextId + 1, some st.nextId, 1⟩)
  | none => (st.nextId, ⟨st.nextId + 1, some st.nextId, 1⟩)

/-- Release of one `QSharedPointer<Ngf::Client>` holder; when the last holder
releases, the count reaches 0 and the instance is destroyed (the weak pointer
expires). -/
def releaseClient (st : SharedClientState) : SharedClientState :=
  { st with strongCount := st.strongCount - 1 }

/-- Well-formedness of the shared-client state: the weak pointer never points
at an instance that has not been constructed yet. -/
def SharedClientState.Wf (st : SharedClientState) : Prop :=
  ∀ i, st.client = some i → i < st.nextId

namespace Ngf

/-! ### Helper lemmas about the property-map model -/

theorem mapLookup_mapInsert (m : Proplist) (k0 : String) (v0 : QVariant) (k : String) :
    mapLookup (mapInsert m k0 v0) k = if k0 = k then some v0 else mapLookup m k := by
  induction m with
  | nil => simp [mapInsert, mapLookup]
  | cons hd tl ih =>
    obtain ⟨k1, v1⟩ := hd
    by_cases h1 : k1 = k0
    · subst h1
      by_cases h2 : k1 = k <;> simp [mapInsert, mapLookup, h2]
    · by_cases h2 : k1 = k
      · subst h2
        have : ¬k0 = k1 := fun hh => h1 hh.symm
        simp [mapInsert, mapLookup, h1, this]
      · simp [mapInsert, mapLookup, h1, h2, ih]

theorem buildProp_lookup_of_not_mem (l : List (String × QVariant)) (prop : Proplist)
    (k : String) (h : k ∉ l.map Prod.fst) :
    mapLookup (DeclarativeNgfEvent.buildProp l prop) k = mapLookup prop k := by
  induction l generalizing prop with
  | nil => rfl
  | cons hd tl ih =>
    obtain ⟨n, v⟩ := hd
    simp only [List.map_cons, List.mem_cons, not_or] at h
    rw [DeclarativeNgfEvent.buildProp, ih _ h.2]
    have hnk : ¬n = k := fun hh => h.1 hh.symm
    by_cases hs : v.isSupported = true <;>
      simp [hs, mapLookup_mapInsert, hnk]

theorem key_unique {l : List (String × QVariant)} (h : (l.map Prod.fst).Nodup)
    {p q : String × QVariant} (hp : p ∈ l) (hq : q ∈ l) (hk : p.1 = q.1) : p = q := by
  induction l with
  | nil => cases hp
  | cons hd tl ih =>
    rw [List.map_cons, List.nodup_cons] at h
    rcases List.mem_cons.mp hp with hp1 | hp1 <;> rcases List.mem_cons.mp hq with hq1 | hq1
    · rw [hp1, hq1]
    · exfalso
      apply h.1
      rw [hp1] at hk
      rw [hk]
      exact List.mem_map_of_mem Prod.fst hq1
    · exfalso
      apply h.1
      rw [hq1] at hk
      rw [← hk]
      exact List.mem_map_of_mem Prod.fst hp1
    · exact ih h.2 hp1 hq1

theorem buildProp_lookup (l : List (String × QVariant)) (prop : Proplist) (k : String)
    (h : (l.map Prod.fst).Nodup) :
    mapLookup (DeclarativeNgfEvent.buildProp l prop) k =
      match l.find? (fun p => decide (p.1 = k) && p.2.isSupported) with
      | some p => some p.2
      | none => mapLookup prop k := by
  induction l generalizing prop with
  | nil => rfl
  | cons hd tl ih =>
    obtain ⟨n, w⟩ := hd
    rw [List.map_cons, List.nodup_cons] at h
    by_cases hk : n = k
    · subst hk
      by_cases hs : w.isSupported = true
      · rw [DeclarativeNgfEvent.buildProp, if_pos hs,
            buildProp_lookup_of_not_mem _ _ _ h.1, mapLookup_mapInsert]
        simp [hs]
      · rw [DeclarativeNgfEvent.buildProp, if_neg hs,
            buildProp_lookup_of_not_mem _ _ _ h.1]
        have hnone : tl.find? (fun p => decide (p.1 = n) && p.2.isSupported) = none := by
          rw [List.find?_eq_none]
          intro x hx
          have hx1 : x.1 ∈ List.map Prod.fst tl := List.mem_map_of_mem Prod.fst hx
          have hxn : x.1 ≠ n := by
            intro hh
            rw [hh] at hx1
            exact h.1 hx1
          simp [hxn]
        simp [hs, hnone]
    · have hpred : (decide ((n, w).1 = k) && (n, w).2.isSupported) = false := by
        simp [hk]
      rw [List.find?_cons_of_neg _ (by simp [hpred])]
      by_cases hs : w.isSupported = true
      · rw [DeclarativeNgfEvent.buildProp, if_pos hs, ih _ h.2]
        cases tl.find? (fun p => decide (p.1 = k) && p.2.isSupported) with
        | none => simp [mapLookup_mapInsert, hk]
        | some p => rfl
      · rw [DeclarativeNgfEvent.buildProp, if_neg hs, ih _ h.2]

end Ngf

open Ngf

/-- Claim C3: the property map transmitted in the remote Play request contains
exactly the entries of the input whose value is of boolean, integer or string
type, with keys and values unchanged; entries of other value types are
silently omitted.  Moreover `DeclarativeNgfEvent.play` transmits exactly the
map the filtering loop builds. -/
theorem claim_C3 (l : List (String × QVariant)) (k : String) (v : QVariant)
    (h : (l.map Prod.fst).Nodup) :
    (mapLookup (DeclarativeNgfEvent.buildProp l []) k = some v ↔
      ((k, v) ∈ l ∧ v.isSupported = true)) ∧
    (∀ (d : DeclarativeNgfEvent) (c : ClientPrivate), c.m_connected = true →
      d.m_event.isEmpty = false → d.m_eventId = 0 → 0 < d.m_properties.length →
      (DeclarativeNgfEvent.play d c true).2.2.1 =
        [RemoteCall.playCall d.m_event (DeclarativeNgfEvent.buildProp d.m_properties [])]) := by
  constructor
  · rw [buildProp_lookup l [] k h]
    cases hfind : l.find? (fun p => decide (p.1 = k) && p.2.isSupported) with
    | none =>
      simp only [mapLookup]
      constructor
      · intro hh; cases hh
      · rintro ⟨hmem, hsup⟩
        rw [List.find?_eq_none] at hfind
        exact absurd (by simp [hsup]) (hfind (k, v) hmem)
    | some p =>
      have hpred := List.find?_some hfind
      have hmem := List.mem_of_find?_eq_some hfind
      simp only [Bool.and_eq_true, decide_eq_true_eq] at hpred
      constructor
      · intro hh
        have hv : p.2 = v := by injection hh
        refine ⟨?_, hv ▸ hpred.2⟩
        have : p = (k, v) := by
          obtain ⟨p1, p2⟩ := p
          simp only at hpred hv
          rw [hpred.1, hv]
        exact this ▸ hmem
      · rintro ⟨hmemkv, _⟩
        have : p = (k, v) := key_unique h hmem hmemkv (by simp [hpred.1])
        rw [this]
  · intro d c hc hne hid hlen
    simp [DeclarativeNgfEvent.play, ClientPrivate.isConnected, hc, hid, hne,
      ClientPrivate.play, Nat.lt_iff_add_one_le.mp hlen, hlen]

/-- Witness for C3 at a concrete input: the integer- and boolean-valued
properties are kept, and a play call transmits the filtered map. -/
theorem claim_C3_witness :
    ([("volume", QVariant.qint 5), ("repeat", QVariant.qbool true),
      ("art", QVariant.qother "QByteArray")].map Prod.fst).Nodup ∧
    (mapLookup
        (DeclarativeNgfEvent.buildProp
          [("volume", QVariant.qint 5), ("repeat", QVariant.qbool true),
           ("art", QVariant.qother "QByteArray")] []) "volume" = some (QVariant.qint 5) ↔
      (("volume", QVariant.qint 5) ∈
          [("volume", QVariant.qint 5), ("repeat", QVariant.qbool true),
           ("art", QVariant.qother "QByteArray")] ∧
        (QVariant.qint 5).isSupported = true)) ∧
    (DeclarativeNgfEvent.play
        ⟨"chat", EventStatus.Stopped, 0, false,
          [("volume", QVariant.qint 5), ("repeat", QVariant.qbool true),
           ("art", QVariant.qother "QByteArray")]⟩ ⟨true, 0, []⟩ true).2.2.1 =
      [RemoteCall.playCall "chat"
        (DeclarativeNgfEvent.buildProp
          [("volume", QVariant.qint 5), ("repeat", QVariant.qbool true),
           ("art", QVariant.qother "QByteArray")] [])] := by
  have h := claim_C3 [("volume", QVariant.qint 5), ("repeat", QVariant.qbool true),
    ("art", QVariant.qother "QByteArray")] "volume" (QVariant.qint 5) (by decide)
  exact ⟨by decide, h.1,
    h.2 ⟨"chat", EventStatus.Stopped, 0, false,
      [("volume", QVariant.qint 5), ("repeat", QVariant.qbool true),
       ("art", QVariant.qother "QByteArray")]⟩ ⟨true, 0, []⟩ rfl rfl rfl (by decide)⟩

/-- Monotone lower bound for the ids returned by a sequence of play calls
made while connected: they are pairwise increasing and all exceed the
counter's starting value. -/
theorem playMany_bound (st : ClientPrivate) (reqs : List (String × Proplist))
    (h : st.m_connected = true) :
    List.Pairwise (· < ·) (ClientPrivate.playMany st reqs).1 ∧
    ∀ id ∈ (ClientPrivate.playMany st reqs).1, st.m_clientEventId < id := by
  induction reqs generalizing st with
  | nil => simp [ClientPrivate.playMany]
  | cons hd tl ih =>
    obtain ⟨n, p⟩ := hd
    have ih1 := ih
      { st with
          m_clientEventId := st.m_clientEventId + 1,
          m_events := st.m_events ++
            [⟨st.m_clientEventId + 1, 0, n, p, EventState.StateNew⟩] } h
    simp only [ClientPrivate.playMany, ClientPrivate.play, h, if_true] at ih1 ⊢
    refine ⟨List.Pairwise.cons (fun y hy => ?_) ih1.1, ?_⟩
    · have := ih1.2 y hy
      omega
    · intro id hid
      rcases List.mem_cons.mp hid with hid | hid
      · omega
      · have := ih1.2 id hid
        omega

/-- Claim C1: for every sequence of play calls made while connected, the
returned client event ids are strictly increasing (each id is greater than
every id returned before it) and no returned id is 0. -/
theorem claim_C1 (st : ClientPrivate) (reqs : List (String × Proplist))
    (h : st.m_connected = true) :
    List.Pairwise (· < ·) (ClientPrivate.playMany st reqs).1 ∧
    ∀ id ∈ (ClientPrivate.playMany st reqs).1, id ≠ 0 := by
  obtain ⟨h1, h2⟩ := playMany_bound st reqs h
  exact ⟨h1, fun id hid => by have := h2 id hid; omega⟩

/-- Witness for C1 at a concrete input: two plays from a freshly connected
client yield strictly increasing ids, and the second returned id is not 0. -/
theorem claim_C1_witness :
    (⟨true, 0, []⟩ : ClientPrivate).m_connected = true ∧
    List.Pairwise (· < ·)
      (ClientPrivate.playMany ⟨true, 0, []⟩ [("ringtone", []), ("chat", [])]).1 ∧
    (2 : Nat) ≠ 0 := by
  have h := claim_C1 ⟨true, 0, []⟩ [("ringtone", []), ("chat", [])] rfl
  exact ⟨rfl, h.1, h.2 2 (by decide)⟩

/-- Claim C2: playing any event with any property map while not connected
returns the sentinel 0, creates no record, and issues no remote call — the
state is completely unchanged. -/
theorem claim_C2 (st : ClientPrivate) (event : String) (properties : Proplist)
    (h : st.m_connected = false) :
    ClientPrivate.play st event properties = (0, st, []) := by
  simp [ClientPrivate.play, h]

/-- Witness for C2 at a concrete input: play on a fresh (disconnected)
client returns 0 and changes nothing. -/
theorem claim_C2_witness :
    (⟨false, 0, []⟩ : ClientPrivate).m_connected = false ∧
    ClientPrivate.play ⟨false, 0, []⟩ "ringtone" [("volume", QVariant.qint 5)] =
      (0, ⟨false, 0, []⟩, []) :=
  ⟨rfl, claim_C2 ⟨false, 0, []⟩ "ringtone" [("volume", QVariant.qint 5)] rfl⟩

/-- Claim C4: pause, resume and stop — whether addressed by client event id
or by name — return false, issue no remote call, and leave the state
unchanged whenever the looked-up record does not exist or still has server
event id 0 (state New, server id not yet bound). -/
theorem claim_C4 (st : ClientPrivate) (cid : Nat) (name : String)
    (hid : ClientPrivate.findByClientId st cid = none ∨
      ∃ e, ClientPrivate.findByClientId st cid = some e ∧ e.serverEventId = 0)
    (hname : ClientPrivate.findByName st name = none ∨
      ∃ e, ClientPrivate.findByName st name = some e ∧ e.serverEventId = 0) :
    ClientPrivate.pause st cid = (false, st, []) ∧
    ClientPrivate.resume st cid = (false, st, []) ∧
    ClientPrivate.stop st cid = (false, st, []) ∧
    ClientPrivate.pauseByName st name = (false, st, []) ∧
    ClientPrivate.resumeByName st name = (false, st, []) ∧
    ClientPrivate.stopByName st name = (false, st, []) := by
  have hcs : ∀ w, ClientPrivate.changeState st cid w = (false, st, []) := by
    intro w
    rcases hid with hnone | ⟨e, hsome, hzero⟩
    · simp [ClientPrivate.changeState, hnone]
    · simp [ClientPrivate.changeState, hsome, ClientPrivate.requestEventState, hzero]
  have hcsn : ∀ w, ClientPrivate.changeStateByName st name w = (false, st, []) := by
    intro w
    rcases hname with hnone | ⟨e, hsome, hzero⟩
    · simp [ClientPrivate.changeStateByName, hnone]
    · simp [ClientPrivate.changeStateByName, hsome, ClientPrivate.requestEventState, hzero]
  exact ⟨hcs _, hcs _, hcs _, hcsn _, hcsn _, hcsn _⟩

/-- Witness for C4 at a concrete input: a registry holding one New event
(client id 1, server id still 0); pause on id 1 and stop on an unknown name
both fail with no side effects. -/
theorem claim_C4_witness :
    ClientPrivate.pause ⟨true, 1, [⟨1, 0, "ringtone", [], EventState.StateNew⟩]⟩ 1 =
      (false, ⟨true, 1, [⟨1, 0, "ringtone", [], EventState.StateNew⟩]⟩, []) ∧
    ClientPrivate.stopByName ⟨true, 1, [⟨1, 0, "ringtone", [], EventState.StateNew⟩]⟩
        "missing" =
      (false, ⟨true, 1, [⟨1, 0, "ringtone", [], EventState.StateNew⟩]⟩, []) := by
  have h := claim_C4 ⟨true, 1, [⟨1, 0, "ringtone", [], EventState.StateNew⟩]⟩ 1 "missing"
    (Or.inr ⟨⟨1, 0, "ringtone", [], EventState.StateNew⟩, by decide, by decide⟩)
    (Or.inl (by decide))
  exact ⟨h.1, h.2.2.2.2.2⟩

/-- Claim C5: stop on a record with a bound server id succeeds, issues the
remote Stop call, and removes the record from the registry in the same step
(no confirmation awaited); afterwards any stray server notification for the
old server id — completed included — is a silent no-op: no state change and
no signal, so no notification carrying the stopped client id is emitted
again. -/
theorem claim_C5 (st : ClientPrivate) (cid : Nat) (e : Event)
    (hfind : ClientPrivate.findByClientId st cid = some e)
    (hsid : e.serverEventId ≠ 0)
    (huniq : ∀ e2 ∈ st.m_events, e2.serverEventId = e.serverEventId →
      e2.clientEventId = cid) :
    ClientPrivate.stop st cid =
      (true, ClientPrivate.removeEvent st cid, [RemoteCall.stopCall e.serverEventId]) ∧
    ClientPrivate.findByClientId (ClientPrivate.removeEvent st cid) cid = none ∧
    ∀ status, ClientPrivate.setEventState (ClientPrivate.removeEvent st cid)
        e.serverEventId status = (ClientPrivate.removeEvent st cid, []) := by
  have hcid : e.clientEventId = cid := by
    have := List.find?_some hfind
    simpa using this
  have hmem : ∀ x ∈ (ClientPrivate.removeEvent st cid).m_events,
      x ∈ st.m_events ∧ x.clientEventId ≠ cid := by
    intro x hx
    simp only [ClientPrivate.removeEvent, List.mem_filter, decide_eq_true_eq] at hx
    exact hx
  refine ⟨?_, ?_, ?_⟩
  · simp [ClientPrivate.stop, ClientPrivate.changeState, hfind,
      ClientPrivate.requestEventState, hsid, hcid]
  · rw [ClientPrivate.findByClientId, List.find?_eq_none]
    intro x hx
    have := (hmem x hx).2
    simp [this]
  · intro status
    have hnone : ClientPrivate.findByServerId (ClientPrivate.removeEvent st cid)
        e.serverEventId = none := by
      rw [ClientPrivate.findByServerId, List.find?_eq_none]
      intro x hx
      obtain ⟨hx1, hx2⟩ := hmem x hx
      have : x.serverEventId ≠ e.serverEventId := fun hh => hx2 (huniq x hx1 hh)
      simp [this]
    simp [ClientPrivate.setEventState, hnone]

/-- Witness for C5 at a concrete input: the scenario of spec §8 — a playing
event with client id 1 and server id 42 is stopped; a stray completed
notification for server id 42 afterwards is a silent no-op. -/
theorem claim_C5_witness :
    ClientPrivate.stop ⟨true, 2, [⟨1, 42, "ringtone", [], EventState.StatePlaying⟩,
        ⟨2, 0, "chat", [], EventState.StateNew⟩]⟩ 1 =
      (true,
       ClientPrivate.removeEvent ⟨true, 2, [⟨1, 42, "ringtone", [], EventState.StatePlaying⟩,
          ⟨2, 0, "chat", [], EventState.StateNew⟩]⟩ 1,
       [RemoteCall.stopCall 42]) ∧
    ClientPrivate.findByClientId
        (ClientPrivate.removeEvent ⟨true, 2, [⟨1, 42, "ringtone", [], EventState.StatePlaying⟩,
          ⟨2, 0, "chat", [], EventState.StateNew⟩]⟩ 1) 1 = none ∧
    ClientPrivate.setEventState
        (ClientPrivate.removeEvent ⟨true, 2, [⟨1, 42, "ringtone", [], EventState.StatePlaying⟩,
          ⟨2, 0, "chat", [], EventState.StateNew⟩]⟩ 1) 42 ServerEventStatus.completed =
      (ClientPrivate.removeEvent ⟨true, 2, [⟨1, 42, "ringtone", [], EventState.StatePlaying⟩,
          ⟨2, 0, "chat", [], EventState.StateNew⟩]⟩ 1, []) := by
  have h := claim_C5 ⟨true, 2, [⟨1, 42, "ringtone", [], EventState.StatePlaying⟩,
      ⟨2, 0, "chat", [], EventState.StateNew⟩]⟩ 1
    ⟨1, 42, "ringtone", [], EventState.StatePlaying⟩ (by decide) (by decide) (by decide)
  exact ⟨h.1, h.2.1, h.2.2 ServerEventStatus.completed⟩

/-- Claim C6: when the remote service vanishes while events are tracked, the
connected flag becomes false and the registry ends empty (no partial
cleanup); the emitted trace consists of one terminal (failed) notification
per previously tracked event followed by the not-connected notification, so
every per-event notification precedes the connection-status signal. -/
theorem claim_C6 (st : ClientPrivate) (h : st.m_connected = true) :
    (ClientPrivate.serviceUnregistered st).1.m_connected = false ∧
    (ClientPrivate.serviceUnregistered st).1.m_events = [] ∧
    (ClientPrivate.serviceUnregistered st).2 =
      st.m_events.map (fun e => Signal.eventFailed e.clientEventId) ++
        [Signal.connectionStatus false] ∧
    ∀ e ∈ st.m_events, Signal.eventFailed e.clientEventId ∈
      (ClientPrivate.serviceUnregistered st).2.take st.m_events.length := by
  have hsu : ClientPrivate.serviceUnregistered st =
      ({ st with m_connected := false, m_events := [] },
       st.m_events.map (fun e => Signal.eventFailed e.clientEventId) ++
         [Signal.connectionStatus false]) := by
    simp [ClientPrivate.serviceUnregistered, ClientPrivate.removeAllEvents,
      ClientPrivate.changeConnected, h]
  refine ⟨by rw [hsu], by rw [hsu], by rw [hsu], ?_⟩
  intro e he
  rw [hsu]
  have htake : (st.m_events.map (fun e => Signal.eventFailed e.clientEventId) ++
      [Signal.connectionStatus false]).take st.m_events.length =
      st.m_events.map (fun e => Signal.eventFailed e.clientEventId) := by
    have hlen := List.take_left
      (st.m_events.map (fun e => Signal.eventFailed e.clientEventId))
      [Signal.connectionStatus false]
    rwa [List.length_map] at hlen
  rw [htake]
  exact List.mem_map_of_mem _ he

/-- Witness for C6 at a concrete input: the service vanishes while two events
are tracked; the registry empties, both failed notifications are emitted
before the not-connected notification, and the first event's notification
lies in the per-event prefix of the trace. -/
theorem claim_C6_witness :
    (ClientPrivate.serviceUnregistered ⟨true, 2, [⟨1, 42, "ringtone", [], EventState.StatePlaying⟩,
        ⟨2, 0, "chat", [], EventState.StateNew⟩]⟩).1.m_connected = false ∧
    (ClientPrivate.serviceUnregistered ⟨true, 2, [⟨1, 42, "ringtone", [], EventState.StatePlaying⟩,
        ⟨2, 0, "chat", [], EventState.StateNew⟩]⟩).1.m_events = [] ∧
    (ClientPrivate.serviceUnregistered ⟨true, 2, [⟨1, 42, "ringtone", [], EventState.StatePlaying⟩,
        ⟨2, 0, "chat", [], EventState.StateNew⟩]⟩).2 =
      [Signal.eventFailed 1, Signal.eventFailed 2, Signal.connectionStatus false] ∧
    Signal.eventFailed 1 ∈
      (ClientPrivate.serviceUnregistered ⟨true, 2, [⟨1, 42, "ringtone", [], EventState.StatePlaying⟩,
          ⟨2, 0, "chat", [], EventState.StateNew⟩]⟩).2.take 2 := by
  have h := claim_C6 ⟨true, 2, [⟨1, 42, "ringtone", [], EventState.StatePlaying⟩,
      ⟨2, 0, "chat", [], EventState.StateNew⟩]⟩ rfl
  exact ⟨h.1, h.2.1, h.2.2.1, h.2.2.2 ⟨1, 42, "ringtone", [], EventState.StatePlaying⟩ (by decide)⟩

namespace Ngf

/-- Two searches with predicates that agree on every element of the list
return the same result. -/
theorem find?_congr_mem {α : Type} {p q : α → Bool} :
    ∀ {l : List α}, (∀ x ∈ l, p x = q x) → l.find? p = l.find? q := by
  intro l
  induction l with
  | nil => intro _; rfl
  | cons a tl ih =>
    intro h
    have ha := h a (List.mem_cons_self a tl)
    rw [List.find?_cons, List.find?_cons, ha]
    cases q a with
    | true => rfl
    | false => exact ih (fun x hx => h x (List.mem_cons_of_mem a hx))

end Ngf

/-- Claim C7: a successful Play reply is correlated to its record via the
pending-call context (the client id the play call allocated, not the event
name): it binds the server-assigned id on exactly that record, emits nothing,
and leaves the state New; the record's state becomes Playing only upon the
subsequent explicit playing notification from the daemon, which also emits
the event-playing signal. -/
theorem claim_C7 (st : ClientPrivate) (cid sid : Nat) (e : Event)
    (hfind : ClientPrivate.findByClientId st cid = some e)
    (hstate : e.state = EventState.StateNew)
    (hfresh : ∀ e2 ∈ st.m_events, e2.serverEventId ≠ sid) :
    ∃ st1, ClientPrivate.playPendingReply st cid (PlayReply.success sid) = (st1, []) ∧
      ClientPrivate.findByClientId st1 cid = some { e with serverEventId := sid } ∧
      ({ e with serverEventId := sid }).state = EventState.StateNew ∧
      (ClientPrivate.setEventState st1 sid ServerEventStatus.playing).2 =
        [Signal.eventPlaying cid] ∧
      ClientPrivate.findByClientId
          (ClientPrivate.setEventState st1 sid ServerEventStatus.playing).1 cid =
        some { e with serverEventId := sid, state := EventState.StatePlaying } := by
  have hcid : e.clientEventId = cid := by
    have := List.find?_some hfind
    simpa using this
  refine ⟨{ st with m_events := st.m_events.map (fun ev =>
      if ev.clientEventId = cid then { ev with serverEventId := sid } else ev) },
    ?_, ?_, ?_, ?_, ?_⟩
  case _ => simp [ClientPrivate.playPendingReply, hfind]
  case _ =>
    rw [ClientPrivate.findByClientId]
    show (st.m_events.map (fun ev =>
        if ev.clientEventId = cid then { ev with serverEventId := sid } else ev)).find?
        (fun ev => decide (ev.clientEventId = cid)) = _
    rw [List.find?_map]
    have hcomp : ((fun ev : Event => decide (ev.clientEventId = cid)) ∘ (fun ev =>
        if ev.clientEventId = cid then { ev with serverEventId := sid } else ev)) =
        (fun ev : Event => decide (ev.clientEventId = cid)) := by
      funext ev
      by_cases hh : ev.clientEventId = cid <;> simp [hh]
    rw [hcomp]
    rw [show st.m_events.find? (fun ev => decide (ev.clientEventId = cid)) = some e
      from hfind]
    simp [hcid]
  case _ => simp [hstate]
  all_goals
    have hsrv : ClientPrivate.findByServerId
        { st with m_events := st.m_events.map (fun ev =>
            if ev.clientEventId = cid then { ev with serverEventId := sid } else ev) } sid =
        some { e with serverEventId := sid } := by
      rw [ClientPrivate.findByServerId]
      show (st.m_events.map (fun ev =>
          if ev.clientEventId = cid then { ev with serverEventId := sid } else ev)).find?
          (fun ev => decide (ev.serverEventId = sid)) = _
      rw [List.find?_map]
      have hagree : st.m_events.find? ((fun ev : Event => decide (ev.serverEventId = sid)) ∘
          (fun ev => if ev.clientEventId = cid then { ev with serverEventId := sid } else ev)) =
          st.m_events.find? (fun ev => decide (ev.clientEventId = cid)) := by
        apply find?_congr_mem
        intro x hx
        by_cases hh : x.clientEventId = cid
        · simp [Function.comp, hh]
        · simp [Function.comp, hh, hfresh x hx]
      rw [hagree, show st.m_events.find? (fun ev => decide (ev.clientEventId = cid)) = some e
        from hfind]
      simp [hcid]
  case _ =>
    simp [ClientPrivate.setEventState, hsrv, hcid]
  case _ =>
    rw [ClientPrivate.setEventState]
    rw [hsrv]
    show ClientPrivate.findByClientId
        (ClientPrivate.setState _ ({ e with serverEventId := sid }).clientEventId
          EventState.StatePlaying) cid = _
    have hcid2 : ({ e with serverEventId := sid }).clientEventId = cid := hcid
    rw [hcid2]
    rw [ClientPrivate.findByClientId, ClientPrivate.setState]
    show ((st.m_events.map (fun ev =>
        if ev.clientEventId = cid then { ev with serverEventId := sid } else ev)).map
        (fun ev => if ev.clientEventId = cid then { ev with state := EventState.StatePlaying }
          else ev)).find? (fun ev => decide (ev.clientEventId = cid)) = _
    rw [List.find?_map]
    have hcomp2 : ((fun ev : Event => decide (ev.clientEventId = cid)) ∘ (fun ev =>
        if ev.clientEventId = cid then { ev with state := EventState.StatePlaying } else ev)) =
        (fun ev : Event => decide (ev.clientEventId = cid)) := by
      funext ev
      by_cases hh : ev.clientEventId = cid <;> simp [hh]
    rw [hcomp2]
    rw [List.find?_map]
    have hcomp3 : ((fun ev : Event => decide (ev.clientEventId = cid)) ∘ (fun ev =>
        if ev.clientEventId = cid then { ev with serverEventId := sid } else ev)) =
        (fun ev : Event => decide (ev.clientEventId = cid)) := by
      funext ev
      by_cases hh : ev.clientEventId = cid <;> simp [hh]
    rw [hcomp3]
    rw [show st.m_events.find? (fun ev => decide (ev.clientEventId = cid)) = some e
      from hfind]
    simp [hcid]

/-- Witness for C7 at a concrete input: two pending events share the name
"alert"; the reply for client id 2 binds server id 42 on that record only,
with no signal emitted, and the record stays New. -/
theorem claim_C7_witness :
    (ClientPrivate.playPendingReply ⟨true, 2, [⟨1, 0, "alert", [], EventState.StateNew⟩,
        ⟨2, 0, "alert", [], EventState.StateNew⟩]⟩ 2 (PlayReply.success 42)).2 = [] ∧
    ClientPrivate.findByClientId
        (ClientPrivate.playPendingReply ⟨true, 2, [⟨1, 0, "alert", [], EventState.StateNew⟩,
          ⟨2, 0, "alert", [], EventState.StateNew⟩]⟩ 2 (PlayReply.success 42)).1 2 =
      some ⟨2, 42, "alert", [], EventState.StateNew⟩ := by
  obtain ⟨st1, h1, h2, _, _, _⟩ := claim_C7
    ⟨true, 2, [⟨1, 0, "alert", [], EventState.StateNew⟩,
      ⟨2, 0, "alert", [], EventState.StateNew⟩]⟩ 2 42
    ⟨2, 0, "alert", [], EventState.StateNew⟩ (by decide) rfl (by decide)
  rw [h1]
  exact ⟨rfl, h2⟩

/-- Claim C8: connect is idempotent — while already connected it is a no-op
returning success — and the connection-status signal is emitted exactly once
per actual transition of the connected flag: an actual connect transition and
an actual disconnect transition each emit it once, while redundant connect or
disconnect calls emit nothing. -/
theorem claim_C8 (st : ClientPrivate) (h : st.m_connected = true) :
    (∀ b, ClientPrivate.connect st b = (true, st, [])) ∧
    (∀ st1 : ClientPrivate, st1.m_connected = false →
      ClientPrivate.connect st1 true =
        (true, { st1 with m_connected := true }, [Signal.connectionStatus true])) ∧
    ClientPrivate.disconnect st =
      ({ st with m_connected := false }, [Signal.connectionStatus false]) ∧
    (∀ st2 : ClientPrivate, st2.m_connected = false →
      ClientPrivate.disconnect st2 = (st2, [])) := by
  refine ⟨?_, ?_, ?_, ?_⟩
  · intro b
    simp [ClientPrivate.connect, h]
  · intro st1 h1
    simp [ClientPrivate.connect, ClientPrivate.changeConnected, h1]
  · simp [ClientPrivate.disconnect, ClientPrivate.changeConnected, h]
  · intro st2 h2
    simp [ClientPrivate.disconnect, ClientPrivate.changeConnected, h2]

/-- Witness for C8 at concrete inputs: a redundant connect on a connected
client is a pure no-op; a first connect and a first disconnect each emit the
status signal once; a redundant disconnect emits nothing. -/
theorem claim_C8_witness :
    ClientPrivate.connect ⟨true, 0, []⟩ false = (true, ⟨true, 0, []⟩, []) ∧
    ClientPrivate.connect ⟨false, 0, []⟩ true =
      (true, ⟨true, 0, []⟩, [Signal.connectionStatus true]) ∧
    ClientPrivate.disconnect ⟨true, 0, []⟩ =
      (⟨false, 0, []⟩, [Signal.connectionStatus false]) ∧
    ClientPrivate.disconnect ⟨false, 0, []⟩ = (⟨false, 0, []⟩, []) := by
  have h := claim_C8 ⟨true, 0, []⟩ rfl
  exact ⟨h.1 false, h.2.1 ⟨false, 0, []⟩ rfl, h.2.2.1, h.2.2.2 ⟨false, 0, []⟩ rfl⟩

/-- Claim C9: the shared client is lazily constructed and reference-counted:
the first acquisition constructs the instance; any acquisition while at least
one holder is alive returns the same instance; once the last holder has
released (count 0, the instance destroyed), a later acquisition constructs a
fresh instance, distinct from the old one.  Well-formedness (the weak pointer
only ever names an already-constructed instance) holds initially and is
preserved by acquisition and release. -/
theorem claim_C9 :
    clientInstance SharedClientState.initial = (0, ⟨1, some 0, 1⟩) ∧
    (∀ (st : SharedClientState) (i : Nat), st.client = some i → 0 < st.strongCount →
      clientInstance st = (i, { st with strongCount := st.strongCount + 1 })) ∧
    (∀ (st : SharedClientState) (i : Nat), st.Wf → st.client = some i →
      st.strongCount = 0 → (clientInstance st).1 = st.nextId ∧ st.nextId ≠ i) ∧
    SharedClientState.initial.Wf ∧
    (∀ st : SharedClientState, st.Wf → (clientInstance st).2.Wf) ∧
    (∀ st : SharedClientState, st.Wf → (releaseClient st).Wf) := by
  refine ⟨rfl, ?_, ?_, ?_, ?_, ?_⟩
  · intro st i hc hcount
    simp [clientInstance, hc, hcount]
  · intro st i hwf hc hcount
    have hlt := hwf i hc
    constructor
    · simp [clientInstance, hc, hcount]
    · omega
  · intro i hi
    exact Option.noConfusion hi
  · intro st hwf i hi
    cases hco : st.client with
    | none =>
      simp [clientInstance, hco] at hi ⊢
      omega
    | some j =>
      by_cases hc : 0 < st.strongCount
      · simp [clientInstance, hco, hc] at hi ⊢
        have := hwf j hco
        omega
      · simp [clientInstance, hco, hc] at hi ⊢
        omega
  · intro st hwf i hi
    exact hwf i hi

/-- Witness for C9 at concrete inputs: with a live holder, acquisition
returns the existing instance 2 and bumps the count; after the last holder
released, acquisition returns the fresh instance 3, distinct from 2. -/
theorem claim_C9_witness :
    clientInstance ⟨3, some 2, 1⟩ = (2, ⟨3, some 2, 2⟩) ∧
    (clientInstance ⟨3, some 2, 0⟩).1 = 3 ∧ (3 : Nat) ≠ 2 := by
  have h1 := claim_C9.2.1 ⟨3, some 2, 1⟩ 2 rfl (by decide)
  have h2 := claim_C9.2.2.1 ⟨3, some 2, 0⟩ 2
    (by
      intro i hi
      injection hi with hh
      subst hh
      decide)
    rfl rfl
  exact ⟨h1, h2.1, h2.2⟩

/-- Claim C10: setting the declarative event name to the value it already has
is a complete no-op — no declarative signal, no client signal, no remote
call, the element's members and the shared client state all unchanged. -/
theorem claim_C10 (d : DeclarativeNgfEvent) (c : ClientPrivate) (event : String)
    (b : Bool) (h : d.m_event = event) :
    DeclarativeNgfEvent.setEvent d c event b = (d, c, [], [], []) := by
  simp [DeclarativeNgfEvent.setEvent, h]

/-- Witness for C10 at a concrete input: re-setting the name "ringtone" on an
element already named "ringtone" (currently playing as event id 7) changes
nothing and emits nothing. -/
theorem claim_C10_witness :
    DeclarativeNgfEvent.setEvent
        ⟨"ringtone", EventStatus.Playing, 7, false, []⟩
        ⟨true, 7, [⟨7, 42, "ringtone", [], EventState.StatePlaying⟩]⟩ "ringtone" true =
      (⟨"ringtone", EventStatus.Playing, 7, false, []⟩,
       ⟨true, 7, [⟨7, 42, "ringtone", [], EventState.StatePlaying⟩]⟩, [], [], []) :=
  claim_C10 ⟨"ringtone", EventStatus.Playing, 7, false, []⟩
    ⟨true, 7, [⟨7, 42, "ringtone", [], EventState.StatePlaying⟩]⟩ "ringtone" true rfl
